import Mathlib

/-!
Shallow embedding of `src/tailgate_monitor.py`, a Flask service that
correlates door-unlock events with camera tailgating / line-crossing events.

Modelling conventions:
* Timestamps are integers (seconds); Python `(a - b).total_seconds()` becomes
  integer subtraction.  `WINDOW` is the window duration in seconds.
* `UNLOCK_EVENTS` is a `List Int` of unlock timestamps in insertion order.
* A Python exception escaping a route handler is modelled with `Except Unit`;
  global-state mutations performed before the raise are kept in the returned
  state, exactly as the real service's globals survive a 500 response.
* Free-text descriptions are lists of characters; the Python substring test
  `x in s` is `contains_sub`, and `str.lower` is a character-wise `toLower`.
-/

namespace TailgateMonitor

/-- `prune_unlocks` (lines 90-93): `cutoff = now - WINDOW`;
`UNLOCK_EVENTS = [ts for ts in UNLOCK_EVENTS if ts >= cutoff]`. -/
def prune_unlocks (w now : Int) (evs : List Int) : List Int :=
  evs.filter (fun t => decide (now - w ≤ t))

/-- Line 172: `recent_unlocks = [t for t in UNLOCK_EVENTS if 0 <= (now_utc - t).total_seconds() <= WINDOW]`. -/
def recent_unlocks (w now : Int) (evs : List Int) : List Int :=
  evs.filter (fun t => decide (0 ≤ now - t ∧ now - t ≤ w))

/-- Lines 180-184: `for _ in range(count): oldest = min(recent_unlocks);
UNLOCK_EVENTS.remove(oldest); recent_unlocks.remove(oldest)`.
Python `min` of an empty list raises; that branch is unreachable whenever the
iteration count is at most `recent.length`, and we keep the state unchanged
there to stay total. -/
def consume_loop : Nat → List Int → List Int → List Int × List Int
  | 0, evs, recent => (evs, recent)
  | n + 1, evs, recent =>
    match recent.min? with
    | none => (evs, recent)
    | some m => consume_loop n (evs.erase m) (recent.erase m)

/-- Lines 170-187: the tailgating branch of the `/camera` route, acting on the
unlock list: prune, collect the recent unlocks, and either consume `count` of
the oldest ones (verdict `true` = "NO TAILGATE") or consume nothing (verdict
`false` = "TAILGATING").  `count` is an `Int`, as parsed by Python `int`;
`for _ in range(count)` iterates `count.toNat` times. -/
def camera_tailgate (w now count : Int) (evs : List Int) : List Int × Bool :=
  let evs1 := prune_unlocks w now evs
  let recent := recent_unlocks w now evs1
  if count ≤ (recent.length : Int) then
    ((consume_loop count.toNat evs1 recent).1, true)
  else
    (evs1, false)

/-- The list sorted ascending (earliest timestamp first). -/
def sort_asc (l : List Int) : List Int :=
  List.insertionSort (fun a b : Int => a ≤ b) l

/-- The `requiredCount` oldest in-window timestamps, earliest first: the
prefix of length `k` of the list sorted ascending. -/
def k_oldest (k : Nat) (l : List Int) : List Int :=
  (sort_asc l).take k

/-- Python `str.split()` with no argument: split on whitespace runs, no empty
tokens.  Tokens are kept as character lists. -/
def py_split (s : String) : List (List Char) :=
  (List.splitOnP Char.isWhitespace s.toList).filter (fun t => !t.isEmpty)

/-- Value of a nonempty all-digit character list. -/
def digits_val (cs : List Char) : Option Nat :=
  if cs.isEmpty then none
  else if cs.all Char.isDigit then
    some (cs.foldl (fun n c => 10 * n + (c.toNat - '0'.toNat)) 0)
  else none

/-- Python `int(tok)` on a whitespace-free token: an optional sign followed by
decimal digits; anything else raises `ValueError` (`none` here). -/
def py_int (cs : List Char) : Option Int :=
  match cs with
  | '-' :: rest => (digits_val rest).map (fun n => -(n : Int))
  | '+' :: rest => (digits_val rest).map (fun n => (n : Int))
  | _ => (digits_val cs).map (fun n => (n : Int))

/-- Line 169: `count = int(data.get('EventCaption', '2').split()[0] or 2)`.
`.split()[0]` raises `IndexError` on an empty or all-whitespace caption, and
`int(...)` raises `ValueError` on a non-numeric first token; both escape the
handler (`Except.error ()`).  A token surviving the emptiness filter is a
nonempty, hence truthy, string, so the `or 2` alternative is dead. -/
def parse_count (caption : Option String) : Except Unit Int :=
  match py_split (caption.getD "2") with
  | [] => Except.error ()
  | tok :: _ =>
    match py_int tok with
    | some n => Except.ok n
    | none => Except.error ()

/-- One entry of `EVENT_LOG` (a dict in the source); fields that a given
route does not set are `none`, matching `dict.get` returning `None`. -/
structure LogEntry where
  type : String
  time : Int
  camera : Option String := none
  event : Option String := none
  count : Option String := none
  portal : Option String := none
  desc : Option String := none
  verdict : Option String := none
deriving DecidableEq, Repr

/-- The match condition of lines 192: same `'camera'` type, same timestamp,
same event name. -/
def is_cam_match (t : Int) (nm : String) (e : LogEntry) : Prop :=
  e.type = "camera" ∧ e.time = t ∧ e.event = some nm

instance (t : Int) (nm : String) (e : LogEntry) : Decidable (is_cam_match t nm e) := by
  unfold is_cam_match; infer_instance

/-- Lines 190-200: walk `EVENT_LOG` from the most recent entry (the deque is
filled with `appendleft`, so the head of the list is the newest), patch the
verdict of the first matching camera entry in place, and `break`. -/
def update_verdict (t : Int) (nm v : String) : List LogEntry → List LogEntry
  | [] => []
  | e :: rest =>
    if is_cam_match t nm e then
      { e with verdict := some v } :: rest
    else
      e :: update_verdict t nm v rest

/-- Character-wise lowercase, modelling Python `str.lower()` (ASCII). -/
def lower_str (s : String) : String :=
  String.mk (s.toList.map Char.toLower)

/-- Character-wise uppercase, modelling Python `str.upper()` (ASCII). -/
def upper_str (s : String) : String :=
  String.mk (s.toList.map Char.toUpper)

/-- The process-wide mutable state the routes touch: `WINDOW`,
`UNLOCK_EVENTS`, `PEOPLE_COUNT`, `EVENT_LOG` and `app.config['MODE']`. -/
structure SysState where
  window : Int
  unlocks : List Int
  people : Int
  log : List LogEntry
  mode : String
deriving DecidableEq, Repr

/-- The JSON fields of a `/camera` request that the handler reads. -/
structure CamInput where
  eventType : String := ""
  cameraName : Option String := none
  eventName : Option String := none
  caption : Option String := none
deriving Repr

/-- The JSON response of `/camera` beyond `status: ok`. -/
structure CamResp where
  people_count : Option Int := none
  classification : Option String := none
deriving DecidableEq, Repr

/-- Lines 141-201, the `/camera` route: log the event, bump the people counter
on `linecrossing`, and on `tailgating` parse the caption count, consult the
unlock window and patch the logged verdict.  The deque `EVENT_LOG` has
`maxlen=100`, so `appendleft` keeps the first 100 entries. -/
def camera (inp : CamInput) (now : Int) (s : SysState) : SysState × Except Unit CamResp :=
  let et := lower_str inp.eventType
  let entry : LogEntry :=
    { type := "camera", time := now,
      camera := some (inp.cameraName.getD "<unknown>"),
      event := some (inp.eventName.getD "<unnamed>"),
      count := some (inp.caption.getD ""),
      verdict := some (if et = "" then "UNKNOWN" else upper_str et) }
  let s1 := { s with log := (entry :: s.log).take 100 }
  let sr :=
    if et = "linecrossing" then
      let s2 := { s1 with people := s1.people + 1 }
      (s2, ({ people_count := some s2.people } : CamResp))
    else (s1, ({} : CamResp))
  if et = "tailgating" then
    match parse_count inp.caption with
    | Except.error e => (sr.1, Except.error e)
    | Except.ok count =>
      let m := camera_tailgate sr.1.window now count sr.1.unlocks
      let verdict := if m.2 then "NO TAILGATE" else "TAILGATING"
      let s3 := { sr.1 with
        unlocks := m.1
        log := update_verdict now (inp.eventName.getD "<unnamed>") verdict sr.1.log }
      (s3, Except.ok { sr.2 with classification := some verdict })
  else
    (sr.1, Except.ok sr.2)

/-- The JSON value found under `'window'` in a `/set_window` request body. -/
inductive ReqVal where
  | int (n : Int)
  | float (q : Rat)
  | str (s : String)
  | bool (b : Bool)
  | absent
  | null
deriving Repr

/-- Python `int(x)` as applied on line 263 to `data.get('window', WINDOW)`:
ints pass through, floats truncate toward zero, strings parse as decimal
numerals, booleans become 0/1, an absent key falls back to the current
`WINDOW`, and `None` raises `TypeError` (`none`). -/
def py_int_of (v : ReqVal) (cur : Int) : Option Int :=
  match v with
  | ReqVal.int n => some n
  | ReqVal.float q => some (q.num.tdiv (q.den : Int))
  | ReqVal.str s => py_int s.toList
  | ReqVal.bool b => some (if b then 1 else 0)
  | ReqVal.absent => some cur
  | ReqVal.null => none

/-- Lines 258-269, the `/set_window` route: returns the new `WINDOW` value and
whether the request succeeded (`status ok` vs the 400 error branches). -/
def set_window (v : ReqVal) (cur : Int) : Int × Bool :=
  match py_int_of v cur with
  | none => (cur, false)
  | some n =>
    if n < 1 ∨ 60 < n then (cur, false) else (n, true)

/-- Lines 248-256, the `/set_mode` route. -/
def set_mode (m : String) (s : SysState) : SysState × Bool :=
  let mode := lower_str m
  if mode = "tailgating" ∨ mode = "linecrossing" then
    ({ s with mode := mode }, true)
  else
    (s, false)

/-- The three primitive people-counter mutations found in the source. -/
inductive AccessOp where
  | lineCross
  | unlock
  | lock
deriving DecidableEq, Repr

/-- Line 165: `PEOPLE_COUNT += 1`; line 241: `PEOPLE_COUNT -= 1`;
line 245: `PEOPLE_COUNT = 0`. -/
def apply_op (n : Int) : AccessOp → Int
  | AccessOp.lineCross => n + 1
  | AccessOp.unlock => n - 1
  | AccessOp.lock => 0

/-- Replaying a sequence of counter operations from the initial value 0
(line 58: `PEOPLE_COUNT = 0`). -/
def replay (ops : List AccessOp) : Int :=
  ops.foldl apply_op 0

/-- The operations after the last reset, if any (otherwise all of them). -/
def after_last_reset (ops : List AccessOp) : List AccessOp :=
  (ops.reverse.takeWhile (fun o => o != AccessOp.lock)).reverse

/-- Python `needle in hay` for strings: `needle` occurs contiguously in
`hay`. -/
def contains_sub (needle hay : List Char) : Bool :=
  (List.range (hay.length + 1)).any (fun i => needle.isPrefixOf (hay.drop i))

/-- Lines 233-245: the people-counter effect of the `/test_access` route on a
description `desc`: decrement when `'unlock' in desc.lower()`, then reset to
zero when `'lock' in desc.lower()`. -/
def test_access_count (desc : List Char) (n : Int) : Int :=
  let d := desc.map Char.toLower
  let n1 := if contains_sub "unlock".toList d then apply_op n AccessOp.unlock else n
  if contains_sub "lock".toList d then apply_op n1 AccessOp.lock else n1

/-! Helper lemmas. -/

lemma contains_sub_iff (n h : List Char) : contains_sub n h = true ↔ n <:+: h := by
  unfold contains_sub
  rw [List.any_eq_true]
  constructor
  · rintro ⟨i, _, hp⟩
    rw [List.isPrefixOf_iff_prefix] at hp
    exact List.infix_iff_prefix_suffix.mpr ⟨h.drop i, hp, List.drop_suffix i h⟩
  · rintro ⟨s, t, rfl⟩
    refine ⟨s.length, List.mem_range.mpr ?_, ?_⟩
    · simp [List.length_append]
      omega
    · rw [List.isPrefixOf_iff_prefix, List.append_assoc, List.drop_left]
      exact List.prefix_append n t

/-- C2: an unlock recorded at `t` is eligible at query time `q` exactly when
`0 ≤ q − t ≤ w`; pruning keeps exactly the timestamps with `q − t ≤ w`; and
in the concrete scenario window = 10, unlock at `t = 0`, tailgating query at
`q = 11` with required count 1, the verdict is Tailgate (`false`) and the
expired unlock is dropped. -/
theorem c2_window_eligibility (w t q : Int) (evs : List Int) :
    (t ∈ recent_unlocks w q evs ↔ t ∈ evs ∧ 0 ≤ q - t ∧ q - t ≤ w)
    ∧ (t ∈ prune_unlocks w q evs ↔ t ∈ evs ∧ q - t ≤ w)
    ∧ camera_tailgate 10 11 1 [0] = ([], false) := by
  refine ⟨?_, ?_, by decide⟩
  · simp [recent_unlocks, List.mem_filter]
  · rw [prune_unlocks, List.mem_filter]
    simp only [decide_eq_true_eq]
    constructor
    · rintro ⟨h1, h2⟩
      exact ⟨h1, by omega⟩
    · rintro ⟨h1, h2⟩
      exact ⟨h1, by omega⟩

/-- C4: after `prune_unlocks` at time `now` with window `w`, every retained
timestamp `t` satisfies `t ≥ now − w`, and pruning removes exactly the
timestamps strictly older than the cutoff: the multiplicity of any `t` at or
after the cutoff is preserved, and any `t` strictly before it has
multiplicity 0. -/
theorem c4_prune_invariant (w now : Int) (evs : List Int) :
    (∀ t ∈ prune_unlocks w now evs, now - w ≤ t)
    ∧ (∀ t : Int, (prune_unlocks w now evs).count t =
        if now - w ≤ t then evs.count t else 0) := by
  constructor
  · intro t ht
    rw [prune_unlocks, List.mem_filter] at ht
    simpa using ht.2
  · intro t
    by_cases h : now - w ≤ t
    · rw [if_pos h, prune_unlocks, List.count_filter (by simpa using h)]
    · rw [if_neg h, List.count_eq_zero]
      intro hmem
      rw [prune_unlocks, List.mem_filter] at hmem
      exact h (by simpa using hmem.2)

theorem c4_prune_invariant_witness :
    (11 : Int) - 10 ≤ 5 ∧ (prune_unlocks 10 11 [0, 5]).count 0 = 0 :=
  ⟨(c4_prune_invariant 10 11 [0, 5]).1 5 (by decide),
   by have h := (c4_prune_invariant 10 11 [0, 5]).2 0
      rw [if_neg (by decide)] at h
      exact h⟩

/-- C9: any `/test_access` description containing the substring `"unlock"`
(case-insensitively) also satisfies the `'lock' in desc.lower()` check, since
`"lock"` is a substring of `"unlock"`; the counter is decremented and then
reset, so the people counter ends at exactly 0. -/
theorem c9_unlock_also_resets (desc : List Char) (n : Int)
    (h : contains_sub "unlock".toList (desc.map Char.toLower) = true) :
    test_access_count desc n = 0 := by
  have hl : contains_sub "lock".toList (desc.map Char.toLower) = true := by
    rw [contains_sub_iff] at h ⊢
    have hlu : "lock".toList <:+: "unlock".toList := by decide
    exact hlu.trans h
  simp only [test_access_count]
  rw [h, hl]
  simp [apply_op]

theorem c9_unlock_also_resets_witness : test_access_count "Door Unlock".toList 5 = 0 :=
  c9_unlock_also_resets "Door Unlock".toList 5 (by decide)

/-- C3 counterexample: the claim says an unparseable caption falls back to the
default 2 without surfacing an error, and that a negative caption count also
falls back to 2.  In the code `int('junk')` raises `ValueError` (the error
escapes the handler), and a negative caption `-3` is parsed and used as is. -/
theorem c3_counterexample :
    parse_count (some "junk") = Except.error ()
    ∧ parse_count (some "-3") = Except.ok (-3) :=
  ⟨rfl, rfl⟩

/-- C3 amended: an absent caption falls back to the default 2; an unparseable
(or empty) caption raises an error that surfaces to the `/camera` caller
rather than being recovered; a negative parsed count is used as is, which
makes the tailgating check trivially succeed (verdict NoTailgate) while
consuming nothing beyond the prune. -/
theorem c3_caption_parsing (inp : CamInput) (now : Int) (s : SysState) :
    parse_count none = Except.ok 2
    ∧ (lower_str inp.eventType = "tailgating" → parse_count inp.caption = Except.error () →
        (camera inp now s).2 = Except.error ())
    ∧ (∀ (c w : Int) (evs : List Int), c < 0 →
        camera_tailgate w now c evs = (prune_unlocks w now evs, true)) := by
  refine ⟨rfl, ?_, ?_⟩
  · intro het hpc
    simp [camera, het, hpc]
  · intro c w evs hc
    have h1 : c ≤ ((recent_unlocks w now (prune_unlocks w now evs)).length : Int) := by
      omega
    have h2 : c.toNat = 0 := Int.toNat_of_nonpos hc.le
    simp only [camera_tailgate]
    rw [if_pos h1, h2]
    rfl

theorem c3_caption_parsing_witness :
    (camera { eventType := "Tailgating", caption := some "junk" } 0
        ⟨10, [], 0, [], "m"⟩).2 = Except.error ()
    ∧ camera_tailgate 10 5 (-3) [4] = (prune_unlocks 10 5 [4], true) :=
  ⟨(c3_caption_parsing { eventType := "Tailgating", caption := some "junk" } 0
      ⟨10, [], 0, [], "m"⟩).2.1 (by decide) rfl,
   (c3_caption_parsing { eventType := "Tailgating", caption := some "junk" } 5
      ⟨10, [], 0, [], "m"⟩).2.2 (-3) 10 [4] (by decide)⟩

/-- C7 counterexample: the claim says every non-integer request is rejected
with the window unchanged.  The code applies Python `int()` first, which
truncates floats: a request of 3.5 succeeds and sets the window to 3. -/
theorem c7_counterexample : set_window (ReqVal.float ((7 : Rat) / 2)) 10 = (3, true) := by
  have h1 : ((7 : Rat) / 2).num = 7 := by norm_num
  have h2 : ((7 : Rat) / 2).den = 2 := by norm_num
  have h3 : (7 : Int).tdiv 2 = 3 := by decide
  simp [set_window, py_int_of, h1, h2, h3]

/-- C7 amended: `set_window` first converts the request with Python `int()`
(ints pass through, floats truncate toward zero, numeric strings parse,
booleans map to 0/1, `None` and unparseable strings raise).  It succeeds and
stores `n` iff the conversion yields `n ∈ [1, 60]`; a failed conversion or an
out-of-range result reports an error and leaves the window unchanged. -/
theorem c7_set_window_range (v : ReqVal) (cur : Int) :
    (py_int_of v cur = none → set_window v cur = (cur, false))
    ∧ ∀ n : Int, py_int_of v cur = some n →
        ((1 ≤ n ∧ n ≤ 60) → set_window v cur = (n, true))
        ∧ ((n < 1 ∨ 60 < n) → set_window v cur = (cur, false)) := by
  constructor
  · intro h
    simp [set_window, h]
  · intro n h
    constructor
    · intro hr
      simp only [set_window, h]
      rw [if_neg (by omega)]
    · intro hr
      simp only [set_window, h]
      rw [if_pos hr]

theorem c7_set_window_range_witness :
    set_window (ReqVal.str "abc") 10 = (10, false)
    ∧ set_window (ReqVal.int 30) 10 = (30, true) :=
  ⟨(c7_set_window_range (ReqVal.str "abc") 10).1 rfl,
   ((c7_set_window_range (ReqVal.int 30) 10).2 30 rfl).1 (by decide)⟩

/-- C5: replaying any finite sequence of the three people-counter operations
from the initial value 0 gives the arithmetic sum/reset value: each lock
resets to exactly 0, so the final value is the number of line-crossings minus
the number of unlocks among the operations after the last lock (all of them
when no lock occurs), with no lower bound. -/
theorem c5_people_counter_replay (ops : List AccessOp) :
    replay ops = ((after_last_reset ops).count AccessOp.lineCross : Int)
      - ((after_last_reset ops).count AccessOp.unlock : Int) := by
  induction ops using List.reverseRecOn with
  | nil => rfl
  | append_singleton ops op ih =>
    cases op with
    | lineCross =>
      have harep : after_last_reset (ops ++ [AccessOp.lineCross])
          = after_last_reset ops ++ [AccessOp.lineCross] := by
        simp [after_last_reset, List.takeWhile_cons]
      have hrep : replay (ops ++ [AccessOp.lineCross]) = replay ops + 1 := by
        simp [replay, List.foldl_append, apply_op]
      rw [hrep, harep, ih]
      simp [List.count_append]
      ring
    | unlock =>
      have harep : after_last_reset (ops ++ [AccessOp.unlock])
          = after_last_reset ops ++ [AccessOp.unlock] := by
        simp [after_last_reset, List.takeWhile_cons]
      have hrep : replay (ops ++ [AccessOp.unlock]) = replay ops - 1 := by
        simp [replay, List.foldl_append, apply_op]
      rw [hrep, harep, ih]
      simp [List.count_append]
      ring
    | lock =>
      have harep : after_last_reset (ops ++ [AccessOp.lock]) = [] := by
        simp [after_last_reset, List.takeWhile_cons]
      have hrep : replay (ops ++ [AccessOp.lock]) = 0 := by
        simp [replay, List.foldl_append, apply_op]
      rw [hrep, harep]
      simp

lemma update_verdict_no_match (t : Int) (nm v : String) (log : List LogEntry)
    (h : ∀ e ∈ log, ¬ is_cam_match t nm e) : update_verdict t nm v log = log := by
  induction log with
  | nil => rfl
  | cons e rest ih =>
    rw [update_verdict, if_neg (h e (List.mem_cons_self e rest))]
    rw [ih (fun x hx => h x (List.mem_cons_of_mem e hx))]

lemma update_verdict_first_match (t : Int) (nm v : String) (pre : List LogEntry)
    (e : LogEntry) (post : List LogEntry)
    (hpre : ∀ x ∈ pre, ¬ is_cam_match t nm x) (he : is_cam_match t nm e) :
    update_verdict t nm v (pre ++ e :: post)
      = pre ++ { e with verdict := some v } :: post := by
  induction pre with
  | nil =>
    simp only [List.nil_append, update_verdict]
    rw [if_pos he]
  | cons x xs ih =>
    simp only [List.cons_append, update_verdict]
    rw [if_neg (hpre x (List.mem_cons_self x xs))]
    exact congrArg (x :: ·) (ih (fun y hy => hpre y (List.mem_cons_of_mem x hy)))

/-- C6: `update_verdict` scans the log from the most recent entry (list
head): if no entry is a camera entry with the given timestamp and event name,
the log is unchanged (the update is silently dropped); otherwise the first
matching entry gets its verdict replaced in place and the scan stops there —
entries before the match and the whole tail after it, matching or not, are
untouched. -/
theorem c6_update_verdict (t : Int) (nm v : String) (log : List LogEntry) :
    ((∀ e ∈ log, ¬ is_cam_match t nm e) → update_verdict t nm v log = log)
    ∧ (∀ (pre : List LogEntry) (e : LogEntry) (post : List LogEntry),
        log = pre ++ e :: post → (∀ x ∈ pre, ¬ is_cam_match t nm x) →
        is_cam_match t nm e →
        update_verdict t nm v log = pre ++ { e with verdict := some v } :: post) :=
  ⟨update_verdict_no_match t nm v log,
   fun pre e post hlog hpre he =>
     hlog ▸ update_verdict_first_match t nm v pre e post hpre he⟩

theorem c6_update_verdict_witness :
    update_verdict 5 "Tailgating" "NO TAILGATE"
        [⟨"access", 5, none, none, none, some "Test Portal", some "Door Unlock", none⟩,
         ⟨"camera", 5, some "Cam", some "Tailgating", some "1", none, none, some "TAILGATING"⟩,
         ⟨"camera", 5, some "Cam", some "Tailgating", some "1", none, none, some "TAILGATING"⟩]
      = [⟨"access", 5, none, none, none, some "Test Portal", some "Door Unlock", none⟩,
         ⟨"camera", 5, some "Cam", some "Tailgating", some "1", none, none, some "NO TAILGATE"⟩,
         ⟨"camera", 5, some "Cam", some "Tailgating", some "1", none, none, some "TAILGATING"⟩] :=
  (c6_update_verdict 5 "Tailgating" "NO TAILGATE"
      [⟨"access", 5, none, none, none, some "Test Portal", some "Door Unlock", none⟩,
       ⟨"camera", 5, some "Cam", some "Tailgating", some "1", none, none, some "TAILGATING"⟩,
       ⟨"camera", 5, some "Cam", some "Tailgating", some "1", none, none, some "TAILGATING"⟩]).2
    [⟨"access", 5, none, none, none, some "Test Portal", some "Door Unlock", none⟩]
    ⟨"camera", 5, some "Cam", some "Tailgating", some "1", none, none, some "TAILGATING"⟩
    [⟨"camera", 5, some "Cam", some "Tailgating", some "1", none, none, some "TAILGATING"⟩]
    rfl (by decide) (by decide)

/-! Lemmas towards C1: `min` of a list, sortedness, and the consume loop. -/

lemma foldl_min_mem (x : Int) (xs : List Int) : xs.foldl min x ∈ x :: xs := by
  induction xs generalizing x with
  | nil => simp
  | cons y ys ih =>
    simp only [List.foldl_cons]
    rcases List.mem_cons.mp (ih (min x y)) with h1 | h1
    · rcases min_choice x y with hc | hc
      · rw [h1, hc]
        exact List.mem_cons_self _ _
      · rw [h1, hc]
        exact List.mem_cons_of_mem _ (List.mem_cons_self _ _)
    · exact List.mem_cons_of_mem _ (List.mem_cons_of_mem _ h1)

lemma foldl_min_le (x : Int) (xs : List Int) : ∀ b ∈ x :: xs, xs.foldl min x ≤ b := by
  induction xs generalizing x with
  | nil =>
    intro b hb
    simp only [List.mem_cons, List.not_mem_nil, or_false] at hb
    simp [hb, List.foldl_nil]
  | cons y ys ih =>
    intro b hb
    simp only [List.foldl_cons]
    have hself : List.foldl min (min x y) ys ≤ min x y :=
      ih (min x y) (min x y) (List.mem_cons_self _ _)
    rcases List.mem_cons.mp hb with h1 | h1
    · rw [h1]
      exact le_trans hself (min_le_left x y)
    · rcases List.mem_cons.mp h1 with h2 | h2
      · rw [h2]
        exact le_trans hself (min_le_right x y)
      · exact ih (min x y) b (List.mem_cons_of_mem _ h2)

lemma min?_spec {l : List Int} {m : Int} (h : l.min? = some m) :
    m ∈ l ∧ ∀ b ∈ l, m ≤ b := by
  cases l with
  | nil => simp at h
  | cons x xs =>
    rw [List.min?_cons'] at h
    obtain rfl : xs.foldl min x = m := Option.some.inj h
    exact ⟨foldl_min_mem x xs, foldl_min_le x xs⟩

lemma sort_asc_perm (l : List Int) : List.Perm (sort_asc l) l :=
  List.perm_insertionSort _ l

lemma sort_asc_sorted (l : List Int) : List.Sorted (fun a b : Int => a ≤ b) (sort_asc l) :=
  List.sorted_insertionSort _ l

lemma sort_asc_cons_min {l : List Int} {m : Int} (h : l.min? = some m) :
    sort_asc l = m :: sort_asc (l.erase m) := by
  obtain ⟨hmem, hle⟩ := min?_spec h
  have hperm : List.Perm (sort_asc l) (m :: sort_asc (l.erase m)) :=
    ((sort_asc_perm l).trans (List.perm_cons_erase hmem)).trans
      (((sort_asc_perm (l.erase m)).symm).cons m)
  have hs2 : List.Sorted (fun a b : Int => a ≤ b) (m :: sort_asc (l.erase m)) := by
    rw [List.sorted_cons]
    refine ⟨?_, sort_asc_sorted _⟩
    intro b hb
    have hb' : b ∈ l.erase m := (sort_asc_perm (l.erase m)).mem_iff.mp hb
    exact hle b (List.mem_of_mem_erase hb')
  exact List.eq_of_perm_of_sorted hperm (sort_asc_sorted l) hs2

lemma consume_loop_spec : ∀ (k : Nat) (evs l : List Int), k ≤ l.length →
    ((consume_loop k evs l).1 : Multiset Int)
      = (evs : Multiset Int) - (k_oldest k l : Multiset Int) := by
  intro k
  induction k with
  | zero =>
    intro evs l _
    simp [consume_loop, k_oldest]
  | succ n ih =>
    intro evs l h
    cases hm : l.min? with
    | none =>
      rw [List.min?_eq_none_iff] at hm
      subst hm
      simp at h
    | some m =>
      have hmem := (min?_spec hm).1
      have hlen : n ≤ (l.erase m).length := by
        rw [List.length_erase_of_mem hmem]
        omega
      have hrec := ih (evs.erase m) (l.erase m) hlen
      simp only [consume_loop, hm]
      rw [hrec]
      have hk : k_oldest (n + 1) l = m :: k_oldest n (l.erase m) := by
        rw [k_oldest, k_oldest, sort_asc_cons_min hm, List.take_succ_cons]
      rw [hk, ← Multiset.cons_coe, Multiset.sub_cons, ← Multiset.coe_erase]

/-- Filtering to the in-window timestamps is unaffected by first pruning:
eligibility (`0 ≤ now − t ≤ w`) implies surviving the cutoff. -/
lemma recent_prune (w now : Int) (evs : List Int) :
    recent_unlocks w now (prune_unlocks w now evs) = recent_unlocks w now evs := by
  rw [recent_unlocks, prune_unlocks, List.filter_filter, recent_unlocks]
  apply List.filter_congr
  intro a _
  rcases Decidable.em (0 ≤ now - a ∧ now - a ≤ w) with h | h
  · have h2 : now - w ≤ a := by omega
    simp [h, h2]
  · simp [h]
    intros
    omega

/-- The `k` oldest in-window timestamps form a sub-multiset of the pruned
window. -/
lemma k_oldest_subperm (w now : Int) (evs : List Int) (k : Nat) :
    List.Subperm (k_oldest k (recent_unlocks w now (prune_unlocks w now evs)))
      (prune_unlocks w now evs) := by
  have h1 : List.Subperm (k_oldest k (recent_unlocks w now (prune_unlocks w now evs)))
      (sort_asc (recent_unlocks w now (prune_unlocks w now evs))) :=
    (List.take_sublist _ _).subperm
  have h2 : List.Subperm (sort_asc (recent_unlocks w now (prune_unlocks w now evs)))
      (recent_unlocks w now (prune_unlocks w now evs)) :=
    (sort_asc_perm _).subperm
  have h3 : List.Subperm (recent_unlocks w now (prune_unlocks w now evs))
      (prune_unlocks w now evs) :=
    (List.filter_sublist _).subperm
  exact h1.trans (h2.trans h3)

/-- C1: for a tailgating event at time `now` needing `k ≥ 0` unlocks, if at
least `k` of the currently held unlock timestamps are within the window
(`0 ≤ now − t ≤ w`), the verdict is NoTailgate (`true`) and exactly the `k`
oldest in-window timestamps are consumed from the (pruned) unlock window —
the result is the pruned window minus the `k` earliest eligible timestamps,
and its length drops by exactly `k`; otherwise the verdict is Tailgate
(`false`) and nothing beyond the prune is removed.  `k = 0` falls in the
first case: the verdict is NoTailgate and the subtracted multiset is empty. -/
theorem c1_match_and_consume (w now : Int) (k : Nat) (evs : List Int) :
    (k ≤ (recent_unlocks w now evs).length →
        (camera_tailgate w now (k : Int) evs).2 = true
        ∧ ((camera_tailgate w now (k : Int) evs).1 : Multiset Int)
            = (prune_unlocks w now evs : Multiset Int)
              - (k_oldest k (recent_unlocks w now evs) : Multiset Int)
        ∧ (camera_tailgate w now (k : Int) evs).1.length
            = (prune_unlocks w now evs).length - k)
    ∧ ((recent_unlocks w now evs).length < k →
        (camera_tailgate w now (k : Int) evs).2 = false
        ∧ (camera_tailgate w now (k : Int) evs).1 = prune_unlocks w now evs) := by
  constructor
  · intro h
    have h' : k ≤ (recent_unlocks w now (prune_unlocks w now evs)).length := by
      rw [recent_prune]; exact h
    have hcond : (k : Int)
        ≤ ((recent_unlocks w now (prune_unlocks w now evs)).length : Int) := by
      exact_mod_cast h'
    have hmain : ((camera_tailgate w now (k : Int) evs).1 : Multiset Int)
        = (prune_unlocks w now evs : Multiset Int)
          - (k_oldest k (recent_unlocks w now evs) : Multiset Int) := by
      simp only [camera_tailgate]
      rw [if_pos hcond, Int.toNat_ofNat]
      rw [consume_loop_spec k _ _ h', recent_prune]
    have hverdict : (camera_tailgate w now (k : Int) evs).2 = true := by
      simp only [camera_tailgate]
      rw [if_pos hcond]
    refine ⟨hverdict, hmain, ?_⟩
    have hsub : (k_oldest k (recent_unlocks w now evs) : Multiset Int)
        ≤ (prune_unlocks w now evs : Multiset Int) := by
      rw [← recent_prune w now evs]
      exact Multiset.coe_le.mpr (k_oldest_subperm w now evs k)
    have hlenk : (k_oldest k (recent_unlocks w now evs)).length = k := by
      rw [k_oldest, List.length_take, (sort_asc_perm _).length_eq]
      omega
    have := congrArg Multiset.card hmain
    rw [Multiset.coe_card, Multiset.card_sub hsub, Multiset.coe_card,
      Multiset.coe_card, hlenk] at this
    exact this
  · intro h
    have hcond : ¬ ((k : Int)
        ≤ ((recent_unlocks w now (prune_unlocks w now evs)).length : Int)) := by
      rw [recent_prune]
      exact_mod_cast Nat.not_le.mpr h
    constructor
    · simp only [camera_tailgate]
      rw [if_neg hcond]
    · simp only [camera_tailgate]
      rw [if_neg hcond]

theorem c1_match_and_consume_witness :
    ((camera_tailgate 10 5 ((2 : Nat) : Int) [0, 3]).2 = true
      ∧ ((camera_tailgate 10 5 ((2 : Nat) : Int) [0, 3]).1 : Multiset Int)
          = (prune_unlocks 10 5 [0, 3] : Multiset Int)
            - (k_oldest 2 (recent_unlocks 10 5 [0, 3]) : Multiset Int)
      ∧ (camera_tailgate 10 5 ((2 : Nat) : Int) [0, 3]).1.length
          = (prune_unlocks 10 5 [0, 3]).length - 2)
    ∧ ((camera_tailgate 10 5 ((2 : Nat) : Int) [0]).2 = false
      ∧ (camera_tailgate 10 5 ((2 : Nat) : Int) [0]).1 = prune_unlocks 10 5 [0]) :=
  ⟨(c1_match_and_consume 10 5 2 [0, 3]).1 (by decide),
   (c1_match_and_consume 10 5 2 [0]).2 (by decide)⟩

/-- C10: the stored mode (set by `/set_mode` into `app.config['MODE']`) is
never read by the `/camera` handler: two runs that differ only in the stored
mode produce the same window, unlock list, people counter, event log and HTTP
response, and each run passes its own mode through unchanged. -/
theorem c10_mode_never_read (inp : CamInput) (now : Int) (s : SysState) (m1 m2 : String) :
    (camera inp now { s with mode := m1 }).1.window
        = (camera inp now { s with mode := m2 }).1.window
    ∧ (camera inp now { s with mode := m1 }).1.unlocks
        = (camera inp now { s with mode := m2 }).1.unlocks
    ∧ (camera inp now { s with mode := m1 }).1.people
        = (camera inp now { s with mode := m2 }).1.people
    ∧ (camera inp now { s with mode := m1 }).1.log
        = (camera inp now { s with mode := m2 }).1.log
    ∧ (camera inp now { s with mode := m1 }).2
        = (camera inp now { s with mode := m2 }).2
    ∧ (camera inp now { s with mode := m1 }).1.mode = m1
    ∧ (camera inp now { s with mode := m2 }).1.mode = m2 := by
  by_cases h1 : lower_str inp.eventType = "linecrossing"
  · by_cases h2 : lower_str inp.eventType = "tailgating"
    · exact absurd (h1.symm.trans h2) (by decide)
    · simp [camera, h1, h2]
  · by_cases h2 : lower_str inp.eventType = "tailgating"
    · cases hp : parse_count inp.caption with
      | error e => simp [camera, h1, h2, hp]
      | ok c => simp [camera, h1, h2, hp]
    · simp [camera, h1, h2]

end TailgateMonitor
